import Mathlib

/-!
Shallow embedding of the `blog` application of the `django_sprint4` blogging
site (files `blog/views.py` and `blog/urls.py`), together with proofs about
its visibility, ownership, pagination and redirect behaviour.

Entities are plain records; the persistent store is a `Db` record of lists.
Each request handler of `views.py` becomes a pure function from the store and
the request data to the new store and an outcome.  Framework plumbing that the
views rely on is embedded by its documented contract and is marked as such in
the doc comment of the corresponding definition.
-/

namespace Blogicum

/-- A registered user (the framework's user model: the parts read by the blog
views are the primary key and the username; `str(user)` is the username). -/
structure UserT where
  id : Nat
  username : String
deriving DecidableEq, Repr

/-- `Category`: id, slug (unique), publication flag (`models.py`). -/
structure Category where
  id : Nat
  slug : String
  is_published : Bool
deriving DecidableEq, Repr

/-- `Post`: id, title, author (user id), optional category (category id),
publication date and publication flag.  Fields of the model not read by any
view under verification (body text, location, created_at) are omitted. -/
structure Post where
  id : Nat
  title : String
  author : Nat
  categoryId : Option Nat
  pub_date : Int
  is_published : Bool
deriving DecidableEq, Repr

/-- `Comment`: id, text, author (user id), owning post (post id),
creation time. -/
structure Comment where
  id : Nat
  text : String
  author : Nat
  postId : Nat
  created_at : Int
deriving DecidableEq, Repr

/-- The persistent store: the four tables the blog views touch. -/
structure Db where
  users : List UserT
  categories : List Category
  posts : List Post
  comments : List Comment
deriving DecidableEq, Repr

/-- Primary-key lookup of a post (`get_object_or_404(Post, pk=pk)` and the
generic views' object resolution for `model = Post`). -/
def findPost (db : Db) (pk : Nat) : Option Post :=
  db.posts.find? (fun p => p.id == pk)

/-- Primary-key lookup of a comment.  Modelled from the framework's documented
generic-view protocol: `SingleObjectMixin.get_object` resolves the object by
the URL keyword argument named `pk` (neither `CommentEditView` nor
`CommentDeleteView` overrides `get_object`, `pk_url_kwarg` or
`get_queryset`). -/
def findComment (db : Db) (pk : Nat) : Option Comment :=
  db.comments.find? (fun c => c.id == pk)

/-- Lookup of a category row by id (dereferencing `post.category`). -/
def findCategory (db : Db) (cid : Nat) : Option Category :=
  db.categories.find? (fun c => c.id == cid)

/-- Lookup of a user by username (`get_object_or_404(User, username=...)`). -/
def findUserByName (db : Db) (username : String) : Option UserT :=
  db.users.find? (fun u => u.username == username)

/-- The category row a post's foreign key points at, if any. -/
def postCategory (db : Db) (p : Post) : Option Category :=
  p.categoryId.bind (findCategory db)

/-- `str(post.author)`: the username of the post's author. -/
def usernameOf (db : Db) (uid : Nat) : String :=
  match db.users.find? (fun u => u.id == uid) with
  | some u => u.username
  | none => ""

/-- The join condition `category__is_published=True` of `get_posts_qs`:
posts with a null category do not satisfy an inner-join filter. -/
def categoryPublished (db : Db) (p : Post) : Bool :=
  match postCategory db p with
  | some c => c.is_published
  | none => false

/-- `get_posts_qs` (`views.py` lines 45-53): posts with
`is_published=True`, `category__is_published=True`, `pub_date <= now`. -/
def get_posts_qs (db : Db) (now : Int) : List Post :=
  db.posts.filter (fun p =>
    p.is_published && categoryPublished db p && decide (p.pub_date ≤ now))

/-- Insert an element into a list sorted by `le`, before the first element it
compares `le` to. -/
def insertSorted (le : α → α → Bool) (x : α) : List α → List α
  | [] => [x]
  | b :: t => if le x b then x :: b :: t else b :: insertSorted le x t

/-- Stable insertion sort: the store's `ORDER BY` on a result set. -/
def sortBy (le : α → α → Bool) : List α → List α
  | [] => []
  | a :: t => insertSorted le a (sortBy le t)

/-- Descending publication-date order (`order_by('-pub_date')` /
`ordering = '-pub_date'`). -/
def sortByPubDateDesc (ps : List Post) : List Post :=
  sortBy (fun a b => decide (b.pub_date ≤ a.pub_date)) ps

/-- Ascending creation-time order (`order_by('created_at')`). -/
def sortByCreatedAsc (cs : List Comment) : List Comment :=
  sortBy (fun a b => decide (a.created_at ≤ b.created_at)) cs

/-- `annotate(comment_count=Count('comments'))` for one post. -/
def comment_count (db : Db) (p : Post) : Nat :=
  (db.comments.filter (fun c => c.postId == p.id)).length

/-- `MAX_POSTS_IN_ONE_PAGE` (`views.py` line 21) and `paginate_by`. -/
def MAX_POSTS_IN_ONE_PAGE : Nat := 10

/-- Number of pages of a listing (at least one, even when empty). -/
def num_pages (total pageSize : Nat) : Nat :=
  max 1 ((total + pageSize - 1) / pageSize)

/-- Modelled from the spec: the framework paginator used by the listing views
is not part of this repository.  Per the spec, an out-of-range or missing
`page` parameter degrades to the nearest valid page (first or last), never
erroring: a missing or non-numeric parameter selects the first page, a number
above the last page selects the last, a number below one selects the first. -/
def clampPage (np : Nat) (page : Option Int) : Nat :=
  match page with
  | none => 1
  | some i => if i < 1 then 1 else if (np : Int) < i then np else i.toNat

/-- Modelled from the spec: `paginator.get_page(page_number)` — the items of
the selected page, page size `pageSize`, after clamping the requested page
number to the valid range. -/
def get_page (items : List α) (pageSize : Nat) (page : Option Int) : List α :=
  let n := clampPage (num_pages items.length pageSize) page
  (items.drop ((n - 1) * pageSize)).take pageSize

/-- The index queryset with its annotation and ordering
(`PostListView`, `views.py` lines 56-63): visible posts, each annotated with
its comment count, ordered by descending `pub_date`. -/
def index_listing (db : Db) (now : Int) : List (Post × Nat) :=
  (sortByPubDateDesc (get_posts_qs db now)).map (fun p => (p, comment_count db p))

/-- One page of the index listing (`PostListView` with `paginate_by = 10`). -/
def index_page (db : Db) (now : Int) (page : Option Int) : List (Post × Nat) :=
  get_page (index_listing db now) MAX_POSTS_IN_ONE_PAGE page

/-- The posts of the `profile` view (`views.py` lines 31-42):
all posts of the given author — no visibility filter — ordered by descending
`pub_date`, annotated with comment counts. -/
def profilePosts (db : Db) (u : UserT) : List (Post × Nat) :=
  (sortByPubDateDesc (db.posts.filter (fun p => p.author == u.id))).map
    (fun p => (p, comment_count db p))

/-- The `profile` view: resolve the user by username (404 when absent), then
one page of all of that user's posts.  The requesting user is not consulted:
any requester is served the same listing. -/
def profile (db : Db) (requester : UserT) (username : String)
    (page : Option Int) : Option (UserT × List (Post × Nat)) :=
  match findUserByName db username with
  | none => none
  | some u => some (u, get_page (profilePosts db u) MAX_POSTS_IN_ONE_PAGE page)

/-- Outcome of the single-post detail view. -/
inductive DetailOutcome
  /-- `render(request, template, context)` with the post and its comments. -/
  | rendered (post : Post) (comments : List Comment)
  /-- `raise Http404` (also raised by `get_object_or_404`). -/
  | notFound
  /-- A permission-denied response.  No branch of `post_detail` produces it:
  it exists so that its absence can be stated. -/
  | forbidden
  /-- The evaluation dereferences the absent category
  (`post.category.is_published` with `post.category = None`): an attribute
  error escapes the view, so neither branch is reached. -/
  | attrError
deriving DecidableEq, Repr

/-- Whether a detail outcome is a successful rendering. -/
def DetailOutcome.isRendered : DetailOutcome → Bool
  | .rendered _ _ => true
  | _ => false

/-- `post_detail` (`views.py` lines 66-84): load the post by pk (404 when
absent); collect its comments in ascending creation order; then render unless
the requester's username differs from `str(post.author)` AND the post is
unpublished or its category is unpublished.  The condition is evaluated with
Python's short-circuit semantics: when the post is published and has no
category, `post.category.is_published` raises an attribute error.  There is no
`pub_date` check in this view. -/
def post_detail (db : Db) (requester : UserT) (pk : Nat) : DetailOutcome :=
  match findPost db pk with
  | none => .notFound
  | some post =>
    let comments := sortByCreatedAsc (db.comments.filter (fun c => c.postId == post.id))
    if requester.username ≠ usernameOf db post.author then
      if !post.is_published then .notFound
      else
        match postCategory db post with
        | none => .attrError
        | some c => if !c.is_published then .notFound else .rendered post comments
    else
      .rendered post comments

/-- The posts of the `category_posts` view (`views.py` lines 93-99): posts
whose category has the given slug, published, with `pub_date <= now`, ordered
by descending `pub_date`.  (No `category__is_published` filter appears here;
the category itself was already required to be published.) -/
def categoryListing (db : Db) (now : Int) (slug : String) : List Post :=
  sortByPubDateDesc (db.posts.filter (fun p =>
    (match postCategory db p with
     | some c => c.slug == slug
     | none => false)
    && p.is_published && decide (p.pub_date ≤ now)))

/-- Outcome of the category listing view. -/
inductive CategoryOutcome
  | notFound
  | ok (category : Category) (page_obj : List Post)
deriving DecidableEq, Repr

/-- `category_posts` (`views.py` lines 87-105):
`get_object_or_404(Category, is_published=True, slug=category_slug)` — 404
when no published category carries the slug — then one page of the category's
visible posts. -/
def category_posts (db : Db) (now : Int) (slug : String)
    (page : Option Int) : CategoryOutcome :=
  match db.categories.find? (fun c => c.is_published && c.slug == slug) with
  | none => .notFound
  | some c => .ok c (get_page (categoryListing db now slug) MAX_POSTS_IN_ONE_PAGE page)

/-- Redirect targets the views name via `reverse` / `redirect`. -/
inductive Url
  | postDetailU (pk : Nat)
  | profileU (username : String)
deriving DecidableEq, Repr

/-- Outcome of a form-backed mutation view. -/
inductive Response
  /-- 404 from object resolution. -/
  | notFound
  /-- An HTTP redirect to the given target. -/
  | redirect (u : Url)
  /-- The form is re-rendered with errors (invalid submission of an
  `UpdateView`/`CreateView` form). -/
  | formRerender
deriving DecidableEq, Repr

/-- The submitted fields of a `PostForm`. -/
structure PostFormData where
  title : String
  categoryId : Option Nat
  pub_date : Int
  is_published : Bool
deriving DecidableEq, Repr

/-- Applying a valid `PostForm` to an existing post (`UpdateView` save). -/
def updatePost (db : Db) (pk : Nat) (d : PostFormData) : Db :=
  { db with posts := db.posts.map (fun p =>
      if p.id == pk then
        { p with title := d.title, categoryId := d.categoryId,
                 pub_date := d.pub_date, is_published := d.is_published }
      else p) }

/-- Applying a valid `CommentForm` to an existing comment. -/
def updateComment (db : Db) (pk : Nat) (text : String) : Db :=
  { db with comments := db.comments.map (fun c =>
      if c.id == pk then { c with text := text } else c) }

/-- Deleting a comment row. -/
def removeComment (db : Db) (pk : Nat) : Db :=
  { db with comments := db.comments.filter (fun c => !(c.id == pk)) }

/-- Deleting a post row; comments cascade (the spec's §3 invariant: a comment
cannot outlive its post). -/
def removePost (db : Db) (pk : Nat) : Db :=
  { db with posts := db.posts.filter (fun p => !(p.id == pk)),
            comments := db.comments.filter (fun c => !(c.postId == pk)) }

/-- `PostCreateView` (`views.py` lines 108-121): on a valid form, save a new
post with `author = request.user` and redirect to the requester's profile;
on an invalid form, re-render.  `newId` is the key assigned by the store. -/
def postCreateHandler (db : Db) (req : UserT) (d : PostFormData)
    (newId : Nat) (valid : Bool) : Db × Response :=
  if valid then
    ({ db with posts := db.posts ++
        [{ id := newId, title := d.title, author := req.id,
           categoryId := d.categoryId, pub_date := d.pub_date,
           is_published := d.is_published }] },
     .redirect (.profileU req.username))
  else (db, .formRerender)

/-- `PostUpdateView` (`views.py` lines 124-138): `dispatch` loads the post by
pk and, when its author is not the requester, redirects to that pk's detail
view before any form handling; otherwise a valid form is saved and the view
redirects to the same detail view. -/
def postEditHandler (db : Db) (req : UserT) (pk : Nat) (d : PostFormData)
    (valid : Bool) : Db × Response :=
  match findPost db pk with
  | none => (db, .notFound)
  | some p =>
    if p.author ≠ req.id then (db, .redirect (.postDetailU pk))
    else if valid then (updatePost db pk d, .redirect (.postDetailU pk))
    else (db, .formRerender)

/-- `PostDeleteView` (`views.py` lines 186-204): `dispatch` guards ownership
the same way; a confirmed delete removes the post and redirects to the
requester's profile (`get_success_url` reverses `blog:profile`). -/
def postDeleteHandler (db : Db) (req : UserT) (pk : Nat) : Db × Response :=
  match findPost db pk with
  | none => (db, .notFound)
  | some p =>
    if p.author ≠ req.id then (db, .redirect (.postDetailU pk))
    else (removePost db pk, .redirect (.profileU req.username))

/-- `add_commnet` (`views.py` lines 141-150): load the post by id (404 when
absent); when the submitted form is valid, save a comment with
`author = request.user`, `post = target`; in either case redirect to the
post's detail view.  `newId` is the key assigned by the store, `now` the
creation timestamp. -/
def add_commnet (db : Db) (req : UserT) (post_id : Nat) (text : String)
    (valid : Bool) (newId : Nat) (now : Int) : Db × Response :=
  match findPost db post_id with
  | none => (db, .notFound)
  | some _ =>
    if valid then
      ({ db with comments := db.comments ++
          [{ id := newId, text := text, author := req.id,
             postId := post_id, created_at := now }] },
       .redirect (.postDetailU post_id))
    else (db, .redirect (.postDetailU post_id))

/-- `CommentEditView` (`views.py` lines 153-167): the comment is resolved by
the `pk` URL keyword (the route's post-id segment); the `comment_id` segment
is bound by the route (`urls.py` line 34) but never read.  `dispatch` redirects
non-authors to `post_detail` with the same pk; a valid form updates the text
and redirects there as well. -/
def commentEditHandler (db : Db) (req : UserT) (pk comment_id : Nat)
    (text : String) (valid : Bool) : Db × Response :=
  match findComment db pk with
  | none => (db, .notFound)
  | some c =>
    if c.author ≠ req.id then (db, .redirect (.postDetailU pk))
    else if valid then (updateComment db pk text, .redirect (.postDetailU pk))
    else (db, .formRerender)

/-- `CommentDeleteView` (`views.py` lines 170-183): same `pk`-based object
resolution and ownership guard; a confirmed delete removes the comment and
redirects to the requester's profile (`get_success_url` reverses
`blog:profile`, not `blog:post_detail`). -/
def commentDeleteHandler (db : Db) (req : UserT) (pk comment_id : Nat) :
    Db × Response :=
  match findComment db pk with
  | none => (db, .notFound)
  | some c =>
    if c.author ≠ req.id then (db, .redirect (.postDetailU pk))
    else (removeComment db pk, .redirect (.profileU req.username))

/-! Concrete sample data, used by witnesses and counterexamples. -/

/-- Sample user, id 1. -/
def alice : UserT := ⟨1, "alice"⟩

/-- Sample user, id 2. -/
def bob : UserT := ⟨2, "bob"⟩

/-- A published category. -/
def catPub : Category := ⟨1, "tech", true⟩

/-- An unpublished category. -/
def catHidden : Category := ⟨2, "secret", false⟩

/-- A published post by alice in the published category, `pub_date` 50. -/
def post1 : Post := ⟨1, "hello", 1, some 1, 50, true⟩

/-- A future-dated (`pub_date` 1000) published post by alice. -/
def futurePost : Post := ⟨2, "future", 1, some 1, 1000, true⟩

/-- An unpublished post by alice. -/
def hiddenPost : Post := ⟨3, "draft", 1, some 1, 10, false⟩

/-- A published post by alice with no category. -/
def noCatPost : Post := ⟨4, "nocat", 1, none, 10, true⟩

/-- A comment by bob on post 1. -/
def comment1 : Comment := ⟨1, "hi", 2, 1, 5⟩

/-- A comment by alice on post 1, id 2. -/
def comment2 : Comment := ⟨2, "yo", 1, 1, 6⟩

/-- The sample store. -/
def sampleDb : Db :=
  ⟨[alice, bob], [catPub, catHidden],
   [post1, futurePost, hiddenPost, noCatPost], [comment1, comment2]⟩

/-- A sample post-form submission. -/
def pfd : PostFormData := ⟨"edited", some 1, 7, true⟩

/-- A sample post-form submission that is unpublished and future-dated. -/
def draftData : PostFormData := ⟨"draft2", some 1, 2000, false⟩

/-- The i-th of 25 visible sample posts: ids 100.., descending `pub_date`. -/
def postN (i : Nat) : Post := ⟨100 + i, "p", 1, some 1, 25 - (i : Int), true⟩

/-- A store with 25 posts by alice, all visible at time 100. -/
def sample25 : Db := ⟨[alice, bob], [catPub], (List.range 25).map postN, []⟩

/-! Helper lemmas about the insertion sort. -/

/-- Membership is preserved by sorted insertion. -/
theorem mem_insertSorted {le : α → α → Bool} {x a : α} {l : List α} :
    a ∈ insertSorted le x l ↔ a = x ∨ a ∈ l := by
  induction l with
  | nil => simp [insertSorted]
  | cons b t ih =>
    by_cases h : le x b
    · rw [insertSorted, if_pos h]
      simp
    · rw [insertSorted, if_neg h]
      simp only [List.mem_cons, ih]
      tauto

/-- Membership is preserved by sorting. -/
theorem mem_sortBy {le : α → α → Bool} {a : α} {l : List α} :
    a ∈ sortBy le l ↔ a ∈ l := by
  induction l with
  | nil => simp [sortBy]
  | cons b t ih =>
    rw [sortBy, mem_insertSorted, ih]
    simp

/-- Sorted insertion preserves pairwise order, for a total transitive `le`. -/
theorem pairwise_insertSorted (le : α → α → Bool)
    (htrans : ∀ a b c, le a b = true → le b c = true → le a c = true)
    (htot : ∀ a b, le a b || le b a)
    (x : α) (l : List α) (h : l.Pairwise (fun a b => le a b = true)) :
    (insertSorted le x l).Pairwise (fun a b => le a b = true) := by
  induction l with
  | nil => simp [insertSorted]
  | cons b t ih =>
    rcases List.pairwise_cons.mp h with ⟨hb, ht⟩
    by_cases hxb : le x b
    · rw [insertSorted, if_pos hxb]
      refine List.pairwise_cons.mpr ⟨?_, h⟩
      intro y hy
      rcases List.mem_cons.mp hy with rfl | hy
      · exact hxb
      · exact htrans x b y hxb (hb y hy)
    · rw [insertSorted, if_neg hxb]
      refine List.pairwise_cons.mpr ⟨?_, ih ht⟩
      intro y hy
      rcases mem_insertSorted.mp hy with heq | hy
      · rw [heq]
        have h2 := htot x b
        rcases Bool.or_eq_true_iff.mp h2 with h1 | h1
        · exact absurd h1 hxb
        · exact h1
      · exact hb y hy

/-- The insertion sort sorts, for a total transitive `le`. -/
theorem pairwise_sortBy (le : α → α → Bool)
    (htrans : ∀ a b c, le a b = true → le b c = true → le a c = true)
    (htot : ∀ a b, le a b || le b a) (l : List α) :
    (sortBy le l).Pairwise (fun a b => le a b = true) := by
  induction l with
  | nil => simp [sortBy]
  | cons b t ih =>
    rw [sortBy]
    exact pairwise_insertSorted le htrans htot b (sortBy le t) ih

/-- Items of a page are items of the listing. -/
theorem mem_get_page {items : List α} {pageSize : Nat} {page : Option Int} {a : α}
    (h : a ∈ get_page items pageSize page) : a ∈ items := by
  unfold get_page at h
  exact List.mem_of_mem_drop (List.mem_of_mem_take h)

/-- C1: for a post that has a category, the detail view renders iff the
requester is the post's author or both the post and its category are
published; the condition involves no `pub_date` bound (`now` does not occur),
so a future-dated post satisfying it is rendered to a non-author; and when the
condition fails the outcome is Not-Found, never permission-denied.  Usernames
and ids are assumed to identify users uniquely, as the user model's unique
constraints guarantee. -/
theorem c1_post_detail_visibility (db : Db) (req : UserT) (pk : Nat)
    (post : Post) (c : Category) (au : UserT)
    (hp : findPost db pk = some post)
    (hc : postCategory db post = some c)
    (hau : db.users.find? (fun u => u.id == post.author) = some au)
    (hreq : req ∈ db.users)
    (huniq : ∀ u1 ∈ db.users, ∀ u2 ∈ db.users, u1.username = u2.username → u1 = u2)
    (huid : ∀ u1 ∈ db.users, ∀ u2 ∈ db.users, u1.id = u2.id → u1 = u2) :
    ((post_detail db req pk).isRendered = true ↔
      (req.id = post.author ∨ (post.is_published = true ∧ c.is_published = true)))
    ∧ (¬(req.id = post.author ∨ (post.is_published = true ∧ c.is_published = true)) →
        post_detail db req pk = DetailOutcome.notFound) := by
  have hauMem : au ∈ db.users := List.mem_of_find?_eq_some hau
  have hauId : au.id = post.author := by
    have h := List.find?_some hau
    simpa using h
  have hname : usernameOf db post.author = au.username := by
    unfold usernameOf
    rw [hau]
  have hiff : (req.username = usernameOf db post.author) ↔ req.id = post.author := by
    rw [hname]
    constructor
    · intro h
      have he : req = au := huniq req hreq au hauMem h
      rw [he, hauId]
    · intro h
      have he : req = au := huid req hreq au hauMem (by rw [h, hauId])
      rw [he]
  by_cases hu : req.username = usernameOf db post.author
  · have hr : post_detail db req pk
        = .rendered post (sortByCreatedAsc (db.comments.filter (fun cm => cm.postId == post.id))) := by
      simp [post_detail, hp, hu]
    constructor
    · rw [hr]
      simp [DetailOutcome.isRendered]
      exact Or.inl (hiff.mp hu)
    · intro hno
      exact absurd (Or.inl (hiff.mp hu)) hno
  · have hid : ¬ req.id = post.author := fun h => hu (hiff.mpr h)
    by_cases hpub : post.is_published = true
    · by_cases hcp : c.is_published = true
      · have hr : post_detail db req pk
            = .rendered post (sortByCreatedAsc (db.comments.filter (fun cm => cm.postId == post.id))) := by
          simp [post_detail, hp, hu, hpub, hc, hcp]
        constructor
        · rw [hr]
          simp [DetailOutcome.isRendered]
          exact Or.inr ⟨hpub, hcp⟩
        · intro hno
          exact absurd (Or.inr ⟨hpub, hcp⟩) hno
      · have hr : post_detail db req pk = .notFound := by
          simp [post_detail, hp, hu, hpub, hc, hcp]
        refine ⟨⟨fun h => ?_, fun h => ?_⟩, fun _ => hr⟩
        · rw [hr] at h
          simp [DetailOutcome.isRendered] at h
        · rcases h with h | ⟨_, h2⟩
          · exact absurd h hid
          · exact absurd h2 hcp
    · have hr : post_detail db req pk = .notFound := by
        simp [post_detail, hp, hu, hpub]
      refine ⟨⟨fun h => ?_, fun h => ?_⟩, fun _ => hr⟩
      · rw [hr] at h
        simp [DetailOutcome.isRendered] at h
      · rcases h with h | ⟨h1, _⟩
        · exact absurd h hid
        · exact absurd h1 hpub

/-- Witness for C1 at the sample store: the future-dated published post in a
published category is rendered to the non-author bob, and the failure branch
would be Not-Found. -/
theorem c1_witness :
    (((post_detail sampleDb bob 2).isRendered = true ↔
      (bob.id = futurePost.author ∨ (futurePost.is_published = true ∧ catPub.is_published = true)))
    ∧ (¬(bob.id = futurePost.author ∨ (futurePost.is_published = true ∧ catPub.is_published = true)) →
        post_detail sampleDb bob 2 = DetailOutcome.notFound))
    ∧ (post_detail sampleDb bob 2).isRendered = true := by
  refine ⟨c1_post_detail_visibility sampleDb bob 2 futurePost catPub alice
    (by decide) (by decide) (by decide) (by decide) (by decide) (by decide), ?_⟩
  decide

/-- C10: a published post with no category is neither rendered nor answered
with Not-Found for a non-author requester: the visibility check dereferences
the absent category and the evaluation aborts with an attribute error. -/
theorem c10_detail_category_deref (db : Db) (req : UserT) (pk : Nat) (post : Post)
    (hp : findPost db pk = some post)
    (hcat : post.categoryId = none)
    (hpub : post.is_published = true)
    (hna : req.username ≠ usernameOf db post.author) :
    post_detail db req pk = DetailOutcome.attrError
    ∧ post_detail db req pk ≠ DetailOutcome.notFound
    ∧ (post_detail db req pk).isRendered = false := by
  have h1 : post_detail db req pk = .attrError := by
    simp [post_detail, hp, hna, hpub, postCategory, hcat]
  refine ⟨h1, ?_, ?_⟩
  · rw [h1]
    intro h
    exact DetailOutcome.noConfusion h
  · rw [h1]
    rfl

/-- Witness for C10 at the sample store: post 4 is published, has no
category, and bob is not its author; the detail view aborts. -/
theorem c10_witness :
    post_detail sampleDb bob 4 = DetailOutcome.attrError
    ∧ post_detail sampleDb bob 4 ≠ DetailOutcome.notFound
    ∧ (post_detail sampleDb bob 4).isRendered = false :=
  c10_detail_category_deref sampleDb bob 4 noCatPost
    (by decide) (by decide) (by decide) (by decide)

/-- C2: in all four mutation views (post edit, post delete, comment edit,
comment delete), a requester who is not the loaded entity's author is
redirected to the pk's post-detail view by `dispatch`, before any form or
delete logic — the store is returned unchanged. -/
theorem c2_ownership_guard (db : Db) (req : UserT) (pk comment_id : Nat)
    (d : PostFormData) (text : String) (valid : Bool) :
    (∀ p, findPost db pk = some p → p.author ≠ req.id →
        postEditHandler db req pk d valid = (db, Response.redirect (Url.postDetailU pk))
      ∧ postDeleteHandler db req pk = (db, Response.redirect (Url.postDetailU pk)))
    ∧ (∀ c, findComment db pk = some c → c.author ≠ req.id →
        commentEditHandler db req pk comment_id text valid
            = (db, Response.redirect (Url.postDetailU pk))
      ∧ commentDeleteHandler db req pk comment_id
            = (db, Response.redirect (Url.postDetailU pk))) := by
  constructor
  · intro p hp hne
    constructor
    · simp [postEditHandler, hp, hne]
    · simp [postDeleteHandler, hp, hne]
  · intro c hc hne
    constructor
    · simp [commentEditHandler, hc, hne]
    · simp [commentDeleteHandler, hc, hne]

/-- Witness for C2 at the sample store: bob attempts to edit and delete
alice's post 2 and alice's comment 2; each handler leaves the store unchanged
and redirects to post-detail 2. -/
theorem c2_witness :
    (postEditHandler sampleDb bob 2 pfd true
        = (sampleDb, Response.redirect (Url.postDetailU 2))
    ∧ postDeleteHandler sampleDb bob 2
        = (sampleDb, Response.redirect (Url.postDetailU 2)))
    ∧ (commentEditHandler sampleDb bob 2 77 "x" true
        = (sampleDb, Response.redirect (Url.postDetailU 2))
    ∧ commentDeleteHandler sampleDb bob 2 77
        = (sampleDb, Response.redirect (Url.postDetailU 2))) :=
  ⟨(c2_ownership_guard sampleDb bob 2 77 pfd "x" true).1 futurePost
      (by decide) (by decide),
   (c2_ownership_guard sampleDb bob 2 77 pfd "x" true).2 comment2
      (by decide) (by decide)⟩

/-- C3: the comment edited or deleted is resolved by the `pk` URL segment
(the route's post-id slot); the `comment_id` segment has no effect — two
requests differing only in `comment_id` behave identically — and in the
owner's successful case the mutation hits exactly the comment whose id is
`pk`. -/
theorem c3_comment_resolved_by_pk (db : Db) (req : UserT)
    (pk cid1 cid2 : Nat) (text : String) (valid : Bool) :
    commentEditHandler db req pk cid1 text valid
        = commentEditHandler db req pk cid2 text valid
    ∧ commentDeleteHandler db req pk cid1 = commentDeleteHandler db req pk cid2
    ∧ (∀ c, findComment db pk = some c → c.author = req.id →
        (commentEditHandler db req pk cid1 text true).fst = updateComment db pk text
      ∧ (commentDeleteHandler db req pk cid1).fst = removeComment db pk) := by
  refine ⟨rfl, rfl, ?_⟩
  intro c hc hown
  constructor
  · simp [commentEditHandler, hc, hown]
  · simp [commentDeleteHandler, hc, hown]

/-- Witness for C3 at the sample store: with pk 2 and arbitrary distinct
comment ids 5 and 9, alice's edit and delete target comment 2. -/
theorem c3_witness :
    (commentEditHandler sampleDb alice 2 5 "x" true
        = commentEditHandler sampleDb alice 2 9 "x" true
    ∧ commentDeleteHandler sampleDb alice 2 5 = commentDeleteHandler sampleDb alice 2 9
    ∧ ((commentEditHandler sampleDb alice 2 5 "x" true).fst
          = updateComment sampleDb 2 "x"
      ∧ (commentDeleteHandler sampleDb alice 2 5).fst = removeComment sampleDb 2)) :=
  ⟨(c3_comment_resolved_by_pk sampleDb alice 2 5 9 "x" true).1,
   (c3_comment_resolved_by_pk sampleDb alice 2 5 9 "x" true).2.1,
   (c3_comment_resolved_by_pk sampleDb alice 2 5 9 "x" true).2.2 comment2
      (by decide) (by decide)⟩

/-- C7 counterexample: alice successfully deletes her own comment 2 (loaded
via pk 2; its post is post 1), and the handler redirects to alice's profile,
not to the detail view of the comment's post. -/
theorem c7_counterexample :
    findComment sampleDb 2 = some comment2
    ∧ comment2.author = alice.id
    ∧ comment2.postId = 1
    ∧ (commentDeleteHandler sampleDb alice 2 9).snd
        = Response.redirect (Url.profileU "alice")
    ∧ (commentDeleteHandler sampleDb alice 2 9).snd
        ≠ Response.redirect (Url.postDetailU 1) := by
  decide

/-- C7 as amended: after a successful comment edit the handler redirects to
the post-detail view of the URL's `pk` segment; after a successful comment
delete it redirects to the requester's profile page, not to a post detail. -/
theorem c7_comment_success_redirects (db : Db) (req : UserT)
    (pk comment_id : Nat) (text : String) (c : Comment)
    (hc : findComment db pk = some c)
    (hown : c.author = req.id) :
    commentEditHandler db req pk comment_id text true
        = (updateComment db pk text, Response.redirect (Url.postDetailU pk))
    ∧ commentDeleteHandler db req pk comment_id
        = (removeComment db pk, Response.redirect (Url.profileU req.username)) := by
  constructor
  · simp [commentEditHandler, hc, hown]
  · simp [commentDeleteHandler, hc, hown]

/-- Witness for the amended C7 at the sample store. -/
theorem c7_witness :
    commentEditHandler sampleDb alice 2 9 "new" true
        = (updateComment sampleDb 2 "new", Response.redirect (Url.postDetailU 2))
    ∧ commentDeleteHandler sampleDb alice 2 9
        = (removeComment sampleDb 2, Response.redirect (Url.profileU "alice")) :=
  c7_comment_success_redirects sampleDb alice 2 9 "new" comment2
    (by decide) (by decide)

/-- C8: adding a comment 404s when the post is absent; otherwise it always
redirects to the post's detail view; a valid submission appends exactly one
comment with the requester as author and the target post; an invalid one
leaves the store unchanged (and still redirects, surfacing no error). -/
theorem c8_add_comment (db : Db) (req : UserT) (post_id : Nat) (text : String)
    (valid : Bool) (newId : Nat) (now : Int) :
    (findPost db post_id = none →
      add_commnet db req post_id text valid newId now = (db, Response.notFound))
    ∧ (∀ p, findPost db post_id = some p →
        (add_commnet db req post_id text valid newId now).snd
            = Response.redirect (Url.postDetailU post_id)
        ∧ (valid = true →
            (add_commnet db req post_id text valid newId now).fst
              = { db with comments := db.comments ++
                    [{ id := newId, text := text, author := req.id,
                       postId := post_id, created_at := now }] })
        ∧ (valid = false →
            (add_commnet db req post_id text valid newId now).fst = db)) := by
  constructor
  · intro h
    simp [add_commnet, h]
  · intro p hp
    cases valid
    · refine ⟨?_, ?_, ?_⟩ <;> simp [add_commnet, hp]
    · refine ⟨?_, ?_, ?_⟩ <;> simp [add_commnet, hp]

/-- Witness for C8 at the sample store: post 99 is absent (404); a valid
comment on post 1 is appended with bob as author and the handler redirects to
post 1's detail view. -/
theorem c8_witness :
    add_commnet sampleDb bob 99 "hi" true 7 60 = (sampleDb, Response.notFound)
    ∧ ((add_commnet sampleDb bob 1 "hi" true 7 60).snd
          = Response.redirect (Url.postDetailU 1)
      ∧ (true = true → (add_commnet sampleDb bob 1 "hi" true 7 60).fst
          = { sampleDb with comments := sampleDb.comments ++
                [{ id := 7, text := "hi", author := bob.id,
                   postId := 1, created_at := 60 }] })
      ∧ (true = false → (add_commnet sampleDb bob 1 "hi" true 7 60).fst = sampleDb)) :=
  ⟨(c8_add_comment sampleDb bob 99 "hi" true 7 60).1 (by decide),
   (c8_add_comment sampleDb bob 1 "hi" true 7 60).2 post1 (by decide)⟩

/-- C9: a post created through the create handler with author `req` is
contained in `req`'s profile listing immediately afterwards, whatever its
`is_published` flag and `pub_date` — the profile query applies no visibility
filter. -/
theorem c9_create_profile_roundtrip (db : Db) (req : UserT) (d : PostFormData)
    (newId : Nat) (u : UserT)
    (hu : findUserByName db req.username = some u)
    (hid : u.id = req.id) :
    findUserByName (postCreateHandler db req d newId true).fst req.username = some u
    ∧ ({ id := newId, title := d.title, author := req.id,
         categoryId := d.categoryId, pub_date := d.pub_date,
         is_published := d.is_published } : Post)
        ∈ (profilePosts (postCreateHandler db req d newId true).fst u).map Prod.fst := by
  have husers : (postCreateHandler db req d newId true).fst.users = db.users := by
    simp [postCreateHandler]
  have hposts : (postCreateHandler db req d newId true).fst.posts
      = db.posts ++
        [{ id := newId, title := d.title, author := req.id,
           categoryId := d.categoryId, pub_date := d.pub_date,
           is_published := d.is_published }] := by
    simp [postCreateHandler]
  constructor
  · unfold findUserByName
    rw [husers]
    exact hu
  · unfold profilePosts sortByPubDateDesc
    rw [hposts]
    simp only [List.map_map]
    rw [List.mem_map]
    refine ⟨_, ?_, rfl⟩
    rw [mem_sortBy, List.mem_filter]
    constructor
    · exact List.mem_append_right _ (List.mem_singleton.mpr rfl)
    · simp [hid]

/-- Witness for C9 at the sample store: alice creates an unpublished,
future-dated post; it is in her profile listing at once. -/
theorem c9_witness :
    findUserByName (postCreateHandler sampleDb alice draftData 9 true).fst
        alice.username = some alice
    ∧ ({ id := 9, title := draftData.title, author := alice.id,
         categoryId := draftData.categoryId, pub_date := draftData.pub_date,
         is_published := draftData.is_published } : Post)
        ∈ (profilePosts (postCreateHandler sampleDb alice draftData 9 true).fst
            alice).map Prod.fst :=
  c9_create_profile_roundtrip sampleDb alice draftData 9 alice (by decide) (by decide)

/-- The clamped page number is always a valid page number. -/
theorem clampPage_bounds (np : Nat) (hnp : 1 ≤ np) (page : Option Int) :
    1 ≤ clampPage np page ∧ clampPage np page ≤ np := by
  cases page with
  | none => exact ⟨le_refl 1, hnp⟩
  | some i =>
    have hc : clampPage np (some i)
        = if i < 1 then 1 else if (np : Int) < i then np else i.toNat := rfl
    rw [hc]
    by_cases h1 : i < 1
    · rw [if_pos h1]
      exact ⟨le_refl 1, hnp⟩
    · rw [if_neg h1]
      by_cases h2 : (np : Int) < i
      · rw [if_pos h2]
        exact ⟨hnp, le_refl np⟩
      · rw [if_neg h2]
        omega

/-- C4: any `page` parameter — missing, too small or too large — selects a
valid page of the listing (`get_page` always returns the slice of some page
number between 1 and the page count); concretely, with the 25 visible posts of
`sample25`, index page 1 is items 1-10, page 3 is items 21-25, page 99 is the
last page and a missing parameter is the first, and the profile and category
listings paginate the same way. -/
theorem c4_pagination_graceful :
    (∀ (items : List (Post × Nat)) (page : Option Int), ∃ n,
      1 ≤ n ∧ n ≤ num_pages items.length MAX_POSTS_IN_ONE_PAGE ∧
      get_page items MAX_POSTS_IN_ONE_PAGE page
        = (items.drop ((n - 1) * MAX_POSTS_IN_ONE_PAGE)).take MAX_POSTS_IN_ONE_PAGE)
    ∧ (index_listing sample25 100).length = 25
    ∧ index_page sample25 100 (some 1) = (index_listing sample25 100).take 10
    ∧ index_page sample25 100 (some 3) = (index_listing sample25 100).drop 20
    ∧ index_page sample25 100 (some 99) = index_page sample25 100 (some 3)
    ∧ index_page sample25 100 none = index_page sample25 100 (some 1)
    ∧ profile sample25 bob "alice" (some 99)
        = some (alice, (profilePosts sample25 alice).drop 20)
    ∧ category_posts sample25 100 "tech" (some 99)
        = CategoryOutcome.ok catPub ((categoryListing sample25 100 "tech").drop 20) := by
  refine ⟨?_, by decide, by decide, by decide, by decide, by decide, by decide, by decide⟩
  intro items page
  have hnp : 1 ≤ num_pages items.length MAX_POSTS_IN_ONE_PAGE := le_max_left 1 _
  obtain ⟨h1, h2⟩ := clampPage_bounds (num_pages items.length MAX_POSTS_IN_ONE_PAGE) hnp page
  exact ⟨clampPage (num_pages items.length MAX_POSTS_IN_ONE_PAGE) page, h1, h2, rfl⟩

/-- C5 counterexample: the unpublished `hiddenPost` is served to the
non-author bob on page 1 of alice's profile listing — an unpublished post does
appear on a listing page shown to a non-author viewer. -/
theorem c5_counterexample :
    hiddenPost.is_published = false
    ∧ bob.id ≠ hiddenPost.author
    ∧ (hiddenPost, 0) ∈ ((profile sampleDb bob "alice" (some 1)).getD (alice, [])).snd := by
  decide

/-- C5 as amended: the index listing is exactly the posts that are published,
have a published category and are not future-dated, each annotated with its
comment count and ordered by descending `pub_date`; an unpublished post
appears on no index page and no category-listing page (the profile listing,
by contrast, applies no visibility filter). -/
theorem c5_index_listing_exact (db : Db) (now : Int) :
    (∀ ap, ap ∈ index_listing db now →
        ap.1 ∈ db.posts ∧ ap.1.is_published = true
        ∧ categoryPublished db ap.1 = true ∧ ap.1.pub_date ≤ now
        ∧ ap.2 = comment_count db ap.1)
    ∧ (∀ p, p ∈ db.posts → p.is_published = true → categoryPublished db p = true →
        p.pub_date ≤ now → (p, comment_count db p) ∈ index_listing db now)
    ∧ List.Pairwise (fun a b => b.1.pub_date ≤ a.1.pub_date) (index_listing db now)
    ∧ (∀ (p : Post) (n : Nat) (page : Option Int), p.is_published = false →
        (p, n) ∉ index_page db now page)
    ∧ (∀ (p : Post) (page : Option Int) (slug : String) (c : Category)
          (items : List Post), p.is_published = false →
        category_posts db now slug page = CategoryOutcome.ok c items →
        p ∉ items) := by
  have hmemlist : ∀ ap, ap ∈ index_listing db now ↔
      ∃ q, (q.is_published && categoryPublished db q
              && decide (q.pub_date ≤ now)) = true
        ∧ q ∈ db.posts ∧ ap = (q, comment_count db q) := by
    intro ap
    unfold index_listing sortByPubDateDesc get_posts_qs
    rw [List.mem_map]
    constructor
    · rintro ⟨q, hq, rfl⟩
      rw [mem_sortBy, List.mem_filter] at hq
      exact ⟨q, hq.2, hq.1, rfl⟩
    · rintro ⟨q, hpred, hmem, rfl⟩
      refine ⟨q, ?_, rfl⟩
      rw [mem_sortBy, List.mem_filter]
      exact ⟨hmem, hpred⟩
  refine ⟨?_, ?_, ?_, ?_, ?_⟩
  · intro ap hap
    rcases (hmemlist ap).mp hap with ⟨q, hpred, hmem, rfl⟩
    rcases Bool.and_eq_true_iff.mp hpred with ⟨h12, h3⟩
    rcases Bool.and_eq_true_iff.mp h12 with ⟨h1, h2⟩
    exact ⟨hmem, h1, h2, of_decide_eq_true h3, rfl⟩
  · intro p hmem h1 h2 h3
    refine (hmemlist (p, comment_count db p)).mpr ⟨p, ?_, hmem, rfl⟩
    rw [Bool.and_eq_true_iff, Bool.and_eq_true_iff]
    exact ⟨⟨h1, h2⟩, decide_eq_true h3⟩
  · unfold index_listing sortByPubDateDesc
    rw [List.pairwise_map]
    have hs := pairwise_sortBy (fun a b : Post => decide (b.pub_date ≤ a.pub_date))
      (fun a b c h1 h2 =>
        decide_eq_true (le_trans (of_decide_eq_true h2) (of_decide_eq_true h1)))
      (fun a b => by
        rcases le_total b.pub_date a.pub_date with h | h
        · rw [Bool.or_eq_true_iff]
          exact Or.inl (decide_eq_true h)
        · rw [Bool.or_eq_true_iff]
          exact Or.inr (decide_eq_true h))
      (get_posts_qs db now)
    exact hs.imp (fun h => of_decide_eq_true h)
  · intro p n page hunpub hmem
    have hl := (hmemlist (p, n)).mp (mem_get_page hmem)
    rcases hl with ⟨q, hpred, _, heq⟩
    have hq : q = p := congrArg Prod.fst heq.symm
    rw [hq] at hpred
    rcases Bool.and_eq_true_iff.mp hpred with ⟨h12, _⟩
    rcases Bool.and_eq_true_iff.mp h12 with ⟨h1, _⟩
    rw [hunpub] at h1
    exact Bool.noConfusion h1
  · intro p page slug c items hunpub hok hmem
    unfold category_posts at hok
    cases hfind : db.categories.find? (fun cc => cc.is_published && cc.slug == slug) with
    | none =>
      rw [hfind] at hok
      exact CategoryOutcome.noConfusion hok
    | some cc =>
      rw [hfind] at hok
      have hitems : get_page (categoryListing db now slug) MAX_POSTS_IN_ONE_PAGE page
          = items := by
        injection hok
      rw [← hitems] at hmem
      have hml : p ∈ categoryListing db now slug := mem_get_page hmem
      unfold categoryListing sortByPubDateDesc at hml
      rw [mem_sortBy, List.mem_filter] at hml
      rcases Bool.and_eq_true_iff.mp hml.2 with ⟨h12, _⟩
      rcases Bool.and_eq_true_iff.mp h12 with ⟨_, h2⟩
      rw [hunpub] at h2
      exact Bool.noConfusion h2

/-- Witness for the amended C5 at the sample store at time 100: post 1 is in
the index listing with comment count 2 and satisfies the filter; the
unpublished post 3 is on no index page and not in the "tech" category
listing. -/
theorem c5_witness :
    (post1 ∈ sampleDb.posts ∧ post1.is_published = true
      ∧ categoryPublished sampleDb post1 = true ∧ post1.pub_date ≤ 100
      ∧ (2 : Nat) = comment_count sampleDb post1)
    ∧ (post1, comment_count sampleDb post1) ∈ index_listing sampleDb 100
    ∧ (hiddenPost, 0) ∉ index_page sampleDb 100 (some 1)
    ∧ hiddenPost ∉ get_page (categoryListing sampleDb 100 "tech")
        MAX_POSTS_IN_ONE_PAGE (some 1) :=
  ⟨(c5_index_listing_exact sampleDb 100).1 (post1, 2) (by decide),
   (c5_index_listing_exact sampleDb 100).2.1 post1 (by decide) (by decide)
      (by decide) (by decide),
   (c5_index_listing_exact sampleDb 100).2.2.2.1 hiddenPost 0 (some 1) (by decide),
   (c5_index_listing_exact sampleDb 100).2.2.2.2 hiddenPost (some 1) "tech" catPub
      (get_page (categoryListing sampleDb 100 "tech") MAX_POSTS_IN_ONE_PAGE (some 1))
      (by decide) (by decide)⟩

/-- `find?` returns the unique element satisfying the predicate. -/
theorem find?_eq_of_unique {p : α → Bool} {l : List α} {c : α}
    (hmem : c ∈ l) (hpc : p c = true)
    (huniq : ∀ x ∈ l, p x = true → x = c) :
    l.find? p = some c := by
  induction l with
  | nil => cases hmem
  | cons b t ih =>
    by_cases hb : p b
    · rw [List.find?_cons_of_pos t hb]
      rw [huniq b (List.mem_cons_self b t) hb]
    · rw [List.find?_cons_of_neg t hb]
      rcases List.mem_cons.mp hmem with heq | hmem2
      · rw [heq] at hpc
        exact absurd hpc hb
      · exact ih hmem2 (fun x hx hpx => huniq x (List.mem_cons_of_mem b hx) hpx)

/-- C6: when the category carrying a slug is unpublished, the category
listing is Not-Found even though the category exists; when it is published,
the view returns a page of exactly the posts of that slug that are published
and not future-dated.  The slug is assumed unique among categories, as its
unique constraint guarantees. -/
theorem c6_category_unpublished_404 (db : Db) (now : Int) (slug : String)
    (page : Option Int) (c : Category)
    (hc : db.categories.find? (fun x => x.slug == slug) = some c)
    (huniq : ∀ x ∈ db.categories, x.slug = slug → x = c) :
    (c.is_published = false → category_posts db now slug page = CategoryOutcome.notFound)
    ∧ (c.is_published = true →
        category_posts db now slug page
          = CategoryOutcome.ok c
              (get_page (categoryListing db now slug) MAX_POSTS_IN_ONE_PAGE page)
        ∧ ∀ p, p ∈ categoryListing db now slug ↔
            (p ∈ db.posts
             ∧ (∃ cc, postCategory db p = some cc ∧ cc.slug = slug)
             ∧ p.is_published = true ∧ p.pub_date ≤ now)) := by
  have hslug : c.slug = slug := by
    have h := List.find?_some hc
    simpa using h
  have hcm : c ∈ db.categories := List.mem_of_find?_eq_some hc
  constructor
  · intro hunpub
    have hnone : db.categories.find? (fun x => x.is_published && x.slug == slug)
        = none := by
      rw [List.find?_eq_none]
      intro x hx hpx
      rcases Bool.and_eq_true_iff.mp hpx with ⟨hp1, hp2⟩
      have hxs : x.slug = slug := by simpa using hp2
      have hxc : x = c := huniq x hx hxs
      rw [hxc, hunpub] at hp1
      exact Bool.noConfusion hp1
    unfold category_posts
    rw [hnone]
  · intro hpub
    have hsome : db.categories.find? (fun x => x.is_published && x.slug == slug)
        = some c := by
      refine find?_eq_of_unique hcm ?_ ?_
      · rw [Bool.and_eq_true_iff]
        exact ⟨hpub, by simpa using hslug⟩
      · intro x hx hpx
        rcases Bool.and_eq_true_iff.mp hpx with ⟨_, hp2⟩
        exact huniq x hx (by simpa using hp2)
    constructor
    · unfold category_posts
      rw [hsome]
    · intro p
      unfold categoryListing sortByPubDateDesc
      rw [mem_sortBy, List.mem_filter]
      constructor
      · rintro ⟨hmem, hpred⟩
        rcases Bool.and_eq_true_iff.mp hpred with ⟨h12, h3⟩
        rcases Bool.and_eq_true_iff.mp h12 with ⟨h1, h2⟩
        refine ⟨hmem, ?_, h2, of_decide_eq_true h3⟩
        cases hcat : postCategory db p with
        | none =>
          rw [hcat] at h1
          exact Bool.noConfusion h1
        | some cc =>
          rw [hcat] at h1
          exact ⟨cc, rfl, by simpa using h1⟩
      · rintro ⟨hmem, ⟨cc, hcat, hcs⟩, h2, h3⟩
        refine ⟨hmem, ?_⟩
        rw [Bool.and_eq_true_iff, Bool.and_eq_true_iff]
        refine ⟨⟨?_, h2⟩, decide_eq_true h3⟩
        rw [hcat]
        simpa using hcs

/-- Witness for C6 at the sample store at time 100: the "secret" slug's
category exists but is unpublished, so its listing is Not-Found; the "tech"
slug's category is published, the listing succeeds and contains post 1. -/
theorem c6_witness :
    category_posts sampleDb 100 "secret" (some 1) = CategoryOutcome.notFound
    ∧ category_posts sampleDb 100 "tech" (some 1)
        = CategoryOutcome.ok catPub
            (get_page (categoryListing sampleDb 100 "tech") MAX_POSTS_IN_ONE_PAGE (some 1))
    ∧ (post1 ∈ categoryListing sampleDb 100 "tech" ↔
        (post1 ∈ sampleDb.posts
         ∧ (∃ cc, postCategory sampleDb post1 = some cc ∧ cc.slug = "tech")
         ∧ post1.is_published = true ∧ post1.pub_date ≤ 100)) :=
  ⟨(c6_category_unpublished_404 sampleDb 100 "secret" (some 1) catHidden
      (by decide) (by decide)).1 (by decide),
   ((c6_category_unpublished_404 sampleDb 100 "tech" (some 1) catPub
      (by decide) (by decide)).2 (by decide)).1,
   ((c6_category_unpublished_404 sampleDb 100 "tech" (some 1) catPub
      (by decide) (by decide)).2 (by decide)).2 post1⟩

end Blogicum
